import Mathlib

/-!
Shallow embedding of `src/argparse/downloader.py`.

The script declares an `argparse.ArgumentParser` with
  * positional `links` (`nargs='+'`),
  * `-v`/`--verbosity` storing an arbitrary string,
  * `-q`/`--quality` with `choices=['1080p','720p','480p']`, `default='720p'`,
  * `-t`/`--threads` with `type=int`, `choices=range(1, 32)`, `default=1`,
then calls `parser.parse_args()` and, when `args.verbosity` is truthy, prints
three lines.

The embedding models the behaviour of CPython argparse on this schema: token
classification follows `_parse_optional` in source order (empty and non-dash
tokens are positional, then the exact option-string match, the
single-character check, the split at the first `=` when the part before it is
a registered option string, then `_get_option_tuples` with its short-option
branch, first two characters plus attached explicit argument, and its
long-option prefix-abbreviation branch, and finally the negative-number and
contains-a-space positional fallbacks, the former deciding since this parser
has no option strings that look like negative numbers); then greedy matching
of the single `nargs='+'` positional against the first positional chunk,
single-value consumption for the three value-taking options, `choices` and
`int` validation, the automatic `-h`/`--help` action, and the uniform
usage-error exit path (exit status 2).

Not modelled: the bare `--` separator (CPython strips it before
classification); an ambiguous long-option abbreviation is surfaced as an
unrecognized-argument usage error rather than argparse's ambiguous-option
usage error (the outcome kind and exit status coincide); and Python `int()`
additionally accepts non-ASCII decimal digits and non-ASCII whitespace,
which are not modelled. No claim depends on these.
-/

namespace Downloader

/-- Result structure of a successful parse: the fields of the `args`
namespace produced by `parser.parse_args()`. -/
structure ParsedArguments where
  links : List String
  verbosity : Option String
  quality : String
  threads : Int
deriving Repr, DecidableEq

/-- The quality choices, from `choices=['1080p', '720p', '480p']`. -/
def qualityChoices : List String := ["1080p", "720p", "480p"]

/-- Nonempty all-digit character list. -/
def digitsNonempty (cs : List Char) : Bool :=
  !cs.isEmpty && cs.all (·.isDigit)

/-- Strip leading and trailing whitespace, as Python `int(str)` does before
converting. -/
def stripWs (cs : List Char) : List Char :=
  ((cs.dropWhile Char.isWhitespace).reverse.dropWhile Char.isWhitespace).reverse

/-- After a leading digit: digits, with single underscores allowed only
between digits, as in Python numeric literals accepted by `int(str)`. -/
def digitsUnderscoreAux : List Char → Bool
  | [] => true
  | c :: rest =>
      if c.isDigit then digitsUnderscoreAux rest
      else if c = Char.ofNat 95 then
        match rest with
        | d :: rest' => d.isDigit && digitsUnderscoreAux rest'
        | [] => false
      else false

/-- A digit run acceptable to Python `int(str)`: nonempty, starts and ends
with a digit, single underscores only between digits. -/
def digitsUnderscore : List Char → Bool
  | [] => false
  | c :: rest => c.isDigit && digitsUnderscoreAux rest

/-- Numeric value of a digit run (most significant first), skipping the
underscore group separators. -/
def digitsValue (cs : List Char) : Nat :=
  cs.foldl
    (fun n c => if c = Char.ofNat 95 then n else 10 * n + (c.toNat - 48)) 0

/-- Python `int(str)` as used by `type=int`: surrounding whitespace is
stripped, then an optional sign followed by a nonempty digit run with
optional single underscores between digits; anything else raises, i.e.
returns `none`. (Non-ASCII decimal digits and non-ASCII whitespace, also
accepted by Python, are not modelled.) -/
def pyInt? (s : String) : Option Int :=
  match stripWs s.toList with
  | [] => none
  | c :: rest =>
      if c = Char.ofNat 45 then
        if digitsUnderscore rest then some (-(digitsValue rest : Int))
        else none
      else if c = Char.ofNat 43 then
        if digitsUnderscore rest then some (digitsValue rest : Int) else none
      else
        if digitsUnderscore (c :: rest) then
          some (digitsValue (c :: rest) : Int)
        else none

/-- argparse `_negative_number_matcher`: `-` followed by digits, or `-` then
digits, a dot and a nonempty digit run. -/
def isNegativeNumberToken (cs : List Char) : Bool :=
  match cs with
  | c :: rest =>
      if c = Char.ofNat 45 then
        digitsNonempty rest ||
          (match rest.dropWhile (·.isDigit) with
           | dot :: frac => dot = Char.ofNat 46 && digitsNonempty frac
           | [] => false)
      else false
  | [] => false

/-- The option strings registered on the parser. -/
inductive OptName where
  | help
  | verbosity
  | quality
  | threads
deriving Repr, DecidableEq

/-- Exact lookup of a registered option string. -/
def optOfString : String → Option OptName
  | "-h" => some .help
  | "--help" => some .help
  | "-v" => some .verbosity
  | "--verbosity" => some .verbosity
  | "-q" => some .quality
  | "--quality" => some .quality
  | "-t" => some .threads
  | "--threads" => some .threads
  | _ => none

/-- Split a character list at the first `=`, if any. -/
def splitAtEq : List Char → Option (List Char × List Char)
  | [] => none
  | c :: rest =>
      if c = Char.ofNat 61 then some ([], rest)
      else (splitAtEq rest).map (fun p => (c :: p.1, p.2))

/-- All option strings registered on the parser, in registration order. -/
def optionStrings : List String :=
  ["-h", "--help", "-v", "--verbosity", "-q", "--quality", "-t", "--threads"]

/-- The `=` step of `_parse_optional`: when the part of the token before its
first `=` is a registered option string, that option, the matched option
string, and the part after the `=` as explicit argument. -/
def eqSplitOption (s : String) : Option (OptName × String × String) :=
  match splitAtEq s.toList with
  | some (name, val) =>
      (optOfString (String.mk name)).map
        (fun o => (o, String.mk name, String.mk val))
  | none => none

/-- The single-dash branch of `_get_option_tuples`: each registered option
string that either equals the token's first two characters (then the
remaining characters are the explicit argument) or has the whole token as a
prefix (then there is no explicit argument). -/
def singleDashTuples (s : String) : List (OptName × String × Option String) :=
  let short2 := String.mk (s.toList.take 2)
  let xarg := String.mk (s.toList.drop 2)
  optionStrings.filterMap (fun os =>
    if os = short2 then (optOfString os).map (fun o => (o, os, some xarg))
    else if s.toList.isPrefixOf os.toList then
      (optOfString os).map (fun o => (o, os, (none : Option String)))
    else none)

/-- The double-dash branch of `_get_option_tuples` (with the default
`allow_abbrev=True`): split the token at its first `=` if any, and collect
each registered option string having the part before it as a prefix, with
the part after the `=` as explicit argument. -/
def doubleDashTuples (s : String) : List (OptName × String × Option String) :=
  let pe : String × Option String :=
    match splitAtEq s.toList with
    | some (name, val) => (String.mk name, some (String.mk val))
    | none => (s, none)
  optionStrings.filterMap (fun os =>
    if pe.1.toList.isPrefixOf os.toList then
      (optOfString os).map (fun o => (o, os, pe.2))
    else none)

/-- `_get_option_tuples`: the double-dash branch for tokens starting with two
prefix characters, the single-dash branch for the rest. Only called on
dash-initial tokens of length at least two. -/
def getOptionTuples (s : String) : List (OptName × String × Option String) :=
  match s.toList with
  | c1 :: c2 :: _ =>
      if c1 = Char.ofNat 45 && c2 = Char.ofNat 45 then doubleDashTuples s
      else if c1 = Char.ofNat 45 then singleDashTuples s
      else []
  | _ => []

/-- Classification of one argument token: a positional, an option together
with the matched option string and any explicit (attached) argument, or an
option-like token the parser cannot resolve. -/
inductive TokClass where
  | positional
  | opt (o : OptName) (os : String) (explicitArg : Option String)
  | unknownOpt
deriving Repr, DecidableEq

/-- Embeds CPython `_parse_optional` for this parser, in source order: the
empty token and tokens not starting with `-` are positionals; an exact
registered option string is that option; a single character is a positional;
a token whose part before its first `=` is a registered option string is
that option with an explicit argument; then `_get_option_tuples` decides
when it yields exactly one interpretation (several interpretations are an
ambiguous-abbreviation usage error, surfaced here as an unrecognized
option); a still-unresolved token is a positional when it looks like a
negative number (this parser has no negative-number-like option strings) or
contains a space, and an unrecognized option otherwise. -/
def parseOptional (s : String) : TokClass :=
  match s.toList with
  | [] => .positional
  | c :: rest =>
      if c ≠ Char.ofNat 45 then .positional
      else
        match optOfString s with
        | some o => .opt o s none
        | none =>
            if rest = [] then .positional
            else
              match eqSplitOption s with
              | some (o, os, v) => .opt o os (some v)
              | none =>
                  match getOptionTuples s with
                  | [(o, os, v)] => .opt o os v
                  | _ :: _ :: _ => .unknownOpt
                  | [] =>
                      if isNegativeNumberToken (c :: rest) then .positional
                      else if (c :: rest).contains (Char.ofNat 32) then
                        .positional
                      else .unknownOpt

/-- Parsing state: accumulated `args` fields, whether the `links` positional
has already matched a chunk, whether the previous token extended the current
positional chunk, and the extras (tokens the parser could not place, which
`parse_known_args` collects and `parse_args` reports only at the end). -/
structure ArgsState where
  links : List String
  verbosity : Option String
  quality : String
  threads : Int
  linksDone : Bool
  inChunk : Bool
  extras : List String
deriving Repr, DecidableEq

/-- Initial state: argparse defaults (`quality='720p'`, `threads=1`,
`verbosity=None`, no positionals matched yet, no extras). -/
def initState : ArgsState :=
  { links := [], verbosity := none, quality := "720p", threads := 1,
    linksDone := false, inChunk := false, extras := [] }

/-- Usage-error message for the missing required positional. -/
def missingLinksMsg : String := "the following arguments are required: links"

/-- Usage-error message for the tokens the parser could not place. -/
def unrecognizedMsg (ts : List String) : String :=
  "unrecognized arguments: " ++ String.intercalate " " ts

/-- Display name of an option in error messages. -/
def optDisplay : OptName → String
  | .help => "-h/--help"
  | .verbosity => "-v/--verbosity"
  | .quality => "-q/--quality"
  | .threads => "-t/--threads"

/-- Usage-error message when a value-taking option is not followed by one. -/
def expectedOneMsg (o : OptName) : String :=
  "argument " ++ optDisplay o ++ ": expected one argument"

/-- Usage-error message when the `nargs=0` help action gets an explicit
argument it cannot use. -/
def ignoredExplicitMsg (v : String) : String :=
  "argument -h/--help: ignored explicit argument: " ++ v

/-- Whether an option string is single-dash (`option_string[1]` is not a
prefix character). -/
def isSingleDashStr (os : String) : Bool :=
  match os.toList with
  | _ :: c2 :: _ => c2 ≠ Char.ofNat 45
  | _ => false

/-- The single-dash stacking loop of `consume_optional` for an explicit
argument attached to the `nargs=0` help action: each character is read as a
further single-dash option; another help flag continues the chain, a
value-taking short option ends it with the remaining characters pending as
its explicit argument (`none` when there are no characters left), and
anything else raises the ignored-explicit-argument error, which is also
raised for an empty explicit argument. In every non-error outcome the help
action fires. -/
def helpStack : List Char → Except String (Option (OptName × Option String))
  | [] => .error (ignoredExplicitMsg "")
  | c :: rest =>
      match optOfString (String.mk [Char.ofNat 45, c]) with
      | none => .error (ignoredExplicitMsg (String.mk (c :: rest)))
      | some .help =>
          match rest with
          | [] => .ok none
          | _ :: _ => helpStack rest
      | some o =>
          .ok (some (o, if rest.isEmpty then none else some (String.mk rest)))

/-- Store one option value into the state, performing the validation argparse
does for this schema: `verbosity` stores any string, `quality` checks
`choices`, `threads` converts with `int` and checks `choices=range(1, 32)`;
an explicit argument given to `-h`/`--help` (a `nargs=0` action) is an error. -/
def storeOpt (st : ArgsState) (o : OptName) (v : String) :
    Except String ArgsState :=
  match o with
  | .help => .error (ignoredExplicitMsg v)
  | .verbosity => .ok { st with verbosity := some v }
  | .quality =>
      if v ∈ qualityChoices then .ok { st with quality := v }
      else .error ("argument -q/--quality: invalid choice: " ++ v)
  | .threads =>
      match pyInt? v with
      | none => .error ("argument -t/--threads: invalid int value: " ++ v)
      | some n =>
          if 1 ≤ n ∧ n ≤ 31 then .ok { st with threads := n }
          else .error ("argument -t/--threads: invalid choice: " ++ v)

/-- Python truthiness of `args.verbosity`: `None` and the empty string are
falsy, every other string is truthy. -/
def pyTruthy : Option String → Bool
  | none => false
  | some s => !s.isEmpty

/-- The lines the script prints on standard output: the `if args.verbosity:`
block prints exactly these three lines, otherwise nothing is printed. -/
def summaryLines (a : ParsedArguments) : List String :=
  if pyTruthy a.verbosity then
    ["Verbose mode",
     "Downloading " ++ a.quality,
     "Downloading with " ++ toString a.threads ++ " threads"]
  else []

/-- Terminal outcome of running the script on an argument vector. -/
inductive Outcome where
  | success (args : ParsedArguments) (stdout : List String)
  | helpShown
  | usageError (msg : String)
deriving Repr, DecidableEq

/-- Process exit status of each outcome: 0 on success and after help,
2 (argparse's usage-error status) on a validation failure. -/
def exitCode : Outcome → Nat
  | .success _ _ => 0
  | .helpShown => 0
  | .usageError _ => 2

/-- Whether an outcome is the usage-error (`InvalidArgument`) kind. -/
def isUsageError : Outcome → Bool
  | .usageError _ => true
  | _ => false

/-- Successful end of parsing: build `ParsedArguments` from the state and run
the `if args.verbosity:` print block. -/
def finishState (st : ArgsState) : Outcome :=
  let a : ParsedArguments :=
    { links := st.links, verbosity := st.verbosity, quality := st.quality,
      threads := st.threads }
  .success a (summaryLines a)

/-- The parsing loop over the argument vector. An option token consumes its
value (the next token when that is classified as a positional, or the
explicit argument); a single-dash help token with an attached explicit
argument runs the stacking loop, showing help unless that loop raises, or a
pending value option at the end of the chain lacks a following value token;
positional tokens extend the current chunk, the first chunk matching the
greedy `nargs='+'` positional `links`; an unresolved option token, or a
positional chunk after `links` has matched, joins the extras and parsing
continues, as in `parse_known_args`; at the end the required `links` must
have matched (checked inside `parse_known_args`), and then any extras are
reported as unrecognized (checked by `parse_args`). -/
def parseLoop : List String → ArgsState → Outcome
  | [], st =>
      if st.linksDone then
        if st.extras.isEmpty then finishState st
        else .usageError (unrecognizedMsg st.extras)
      else .usageError missingLinksMsg
  | t :: rest, st =>
      match parseOptional t with
      | .unknownOpt =>
          parseLoop rest { st with extras := st.extras ++ [t], inChunk := false }
      | .opt .help os (some v) =>
          if isSingleDashStr os then
            match helpStack v.toList with
            | .error m => .usageError m
            | .ok none => .helpShown
            | .ok (some (_, some _)) => .helpShown
            | .ok (some (o', none)) =>
                match rest with
                | [] => .usageError (expectedOneMsg o')
                | w :: _ =>
                    if parseOptional w = .positional then .helpShown
                    else .usageError (expectedOneMsg o')
          else .usageError (ignoredExplicitMsg v)
      | .opt .help _ none => .helpShown
      | .opt o _ (some v) =>
          match storeOpt st o v with
          | .error m => .usageError m
          | .ok st' => parseLoop rest { st' with inChunk := false }
      | .opt o _ none =>
          match rest with
          | [] => .usageError (expectedOneMsg o)
          | v :: rest' =>
              if parseOptional v = .positional then
                match storeOpt st o v with
                | .error m => .usageError m
                | .ok st' => parseLoop rest' { st' with inChunk := false }
              else .usageError (expectedOneMsg o)
      | .positional =>
          if st.linksDone && !st.inChunk then
            parseLoop rest { st with extras := st.extras ++ [t] }
          else
            parseLoop rest
              { st with links := st.links ++ [t], linksDone := true, inChunk := true }

/-- Run the script on an argument vector (the tokens after the program name). -/
def run (argv : List String) : Outcome :=
  parseLoop argv initState

/-- Invariant of the parsing state: `quality` stays in its choice set,
`threads` stays in `range(1, 32)`, and once the `links` positional has
matched, the collected list is nonempty. -/
def StInv (st : ArgsState) : Prop :=
  st.quality ∈ qualityChoices ∧ 1 ≤ st.threads ∧ st.threads ≤ 31 ∧
    (st.linksDone = true → st.links ≠ [])

/- ### Helper lemmas -/

theorem storeOpt_ok_inv {st : ArgsState} {o : OptName} {v : String}
    {st' : ArgsState} (hInv : StInv st) (h : storeOpt st o v = .ok st') :
    StInv st' := by
  obtain ⟨h1, h2, h3, h4⟩ := hInv
  cases o with
  | help => simp [storeOpt] at h
  | verbosity =>
      simp only [storeOpt, Except.ok.injEq] at h
      subst h
      exact ⟨h1, h2, h3, h4⟩
  | quality =>
      simp only [storeOpt] at h
      split at h
      · next hmem =>
          simp only [Except.ok.injEq] at h
          subst h
          exact ⟨hmem, h2, h3, h4⟩
      · simp at h
  | threads =>
      simp only [storeOpt] at h
      split at h
      · simp at h
      · next n hn =>
          split at h
          · next hrange =>
              simp only [Except.ok.injEq] at h
              subst h
              exact ⟨h1, hrange.1, hrange.2, h4⟩
          · simp at h

theorem stInv_inChunk {st : ArgsState} (h : StInv st) :
    StInv { st with inChunk := false } := h

theorem parseLoop_nil_success {st : ArgsState} (hInv : StInv st)
    {args : ParsedArguments} {out : List String}
    (h : parseLoop [] st = .success args out) :
    out = summaryLines args ∧ args.links ≠ [] ∧
      args.quality ∈ qualityChoices ∧ 1 ≤ args.threads ∧ args.threads ≤ 31 := by
  obtain ⟨h1, h2, h3, h4⟩ := hInv
  rw [parseLoop] at h
  split at h
  · next hdone =>
      split at h
      · simp only [finishState, Outcome.success.injEq] at h
        obtain ⟨ha, ho⟩ := h
        subst ha
        subst ho
        exact ⟨rfl, h4 hdone, h1, h2, h3⟩
      · exact Outcome.noConfusion h
  · exact Outcome.noConfusion h

theorem parseLoop_success_aux (n : Nat) :
    ∀ l : List String, l.length ≤ n → ∀ st : ArgsState, StInv st →
    ∀ args out, parseLoop l st = .success args out →
    out = summaryLines args ∧ args.links ≠ [] ∧
      args.quality ∈ qualityChoices ∧ 1 ≤ args.threads ∧ args.threads ≤ 31 := by
  induction n with
  | zero =>
      intro l hl st hInv args out h
      have hnil : l = [] := List.eq_nil_of_length_eq_zero (Nat.le_zero.mp hl)
      subst hnil
      exact parseLoop_nil_success hInv h
  | succ n ih =>
      intro l hl st hInv args out h
      match l with
      | [] => exact parseLoop_nil_success hInv h
      | t :: rest =>
          rw [parseLoop] at h
          split at h
          · -- unresolved option token joins the extras
            have hlen : rest.length ≤ n := by
              simp only [List.length_cons] at hl
              omega
            exact ih rest hlen { st with extras := st.extras ++ [t], inChunk := false } hInv args out h
          · -- help with an attached explicit argument: never a success
            repeat' split at h
            all_goals exact Outcome.noConfusion h
          · -- the bare help action
            exact Outcome.noConfusion h
          · -- option with explicit argument
            split at h
            · exact Outcome.noConfusion h
            · next st' hsto =>
                have hInv' : StInv { st' with inChunk := false } :=
                  stInv_inChunk (storeOpt_ok_inv hInv hsto)
                have hlen : rest.length ≤ n := by
                  simp only [List.length_cons] at hl
                  omega
                exact ih rest hlen _ hInv' args out h
          · -- option consuming the next token
            split at h
            · exact Outcome.noConfusion h
            · next v rest' =>
                split at h
                · split at h
                  · exact Outcome.noConfusion h
                  · next st' hsto =>
                      have hInv' : StInv { st' with inChunk := false } :=
                        stInv_inChunk (storeOpt_ok_inv hInv hsto)
                      have hlen : rest'.length ≤ n := by
                        simp only [List.length_cons] at hl
                        omega
                      exact ih rest' hlen _ hInv' args out h
                · exact Outcome.noConfusion h
          · -- positional token
            split at h
            · -- unmatched positional chunk joins the extras
              have hlen : rest.length ≤ n := by
                simp only [List.length_cons] at hl
                omega
              exact ih rest hlen { st with extras := st.extras ++ [t] } hInv args out h
            · obtain ⟨h1, h2, h3, _⟩ := hInv
              have hInv' : StInv { st with links := st.links ++ [t], linksDone := true, inChunk := true } := by
                refine ⟨h1, h2, h3, fun _ => ?_⟩
                simp
              have hlen : rest.length ≤ n := by
                simp only [List.length_cons] at hl
                omega
              exact ih rest hlen _ hInv' args out h

theorem run_success_inv {argv : List String} {args : ParsedArguments}
    {out : List String} (h : run argv = .success args out) :
    out = summaryLines args ∧ args.links ≠ [] ∧
      args.quality ∈ qualityChoices ∧ 1 ≤ args.threads ∧ args.threads ≤ 31 :=
  parseLoop_success_aux argv.length argv (Nat.le_refl _) initState
    (by refine ⟨by decide, by decide, by decide, fun hc => ?_⟩
        simp [initState] at hc)
    args out h

theorem parseLoop_all_positional (rest : List String) :
    ∀ (ls : List String) (vb : Option String) (q : String) (th : Int),
    (∀ t ∈ rest, parseOptional t = .positional) →
    parseLoop rest ⟨ls, vb, q, th, true, true, []⟩ =
      finishState ⟨ls ++ rest, vb, q, th, true, true, []⟩ := by
  induction rest with
  | nil =>
      intro ls vb q th _
      simp [parseLoop]
  | cons t rest ih =>
      intro ls vb q th h
      have ht : parseOptional t = .positional := h t (List.mem_cons_self t rest)
      rw [parseLoop, ht]
      show parseLoop rest ⟨ls ++ [t], vb, q, th, true, true, []⟩ = _
      rw [ih (ls ++ [t]) vb q th (fun u hu => h u (List.mem_cons_of_mem t hu))]
      simp [List.append_assoc]

/- ### Claims -/

/-- Claim C1: every invocation whose tokens are all positional link tokens
(at least one, and none of the optional flags) parses successfully; the
result keeps the defaults `quality = "720p"` and `threads = 1`, collects the
whole vector as `links`, and nothing is printed to standard output. -/
theorem c1_no_flags_defaults (argv : List String) (hne : argv ≠ [])
    (hpos : ∀ t ∈ argv, parseOptional t = .positional) :
    run argv = .success ⟨argv, none, "720p", 1⟩ [] := by
  cases argv with
  | nil => exact absurd rfl hne
  | cons t rest =>
      have ht : parseOptional t = .positional :=
        hpos t (List.mem_cons_self t rest)
      rw [run, parseLoop, ht]
      show parseLoop rest ⟨[t], none, "720p", 1, true, true, []⟩ = _
      rw [parseLoop_all_positional rest [t] none "720p" 1
        (fun u hu => hpos u (List.mem_cons_of_mem t hu))]
      simp [finishState, summaryLines, pyTruthy]

theorem c1_witness :
    run ["http://a"] = .success ⟨["http://a"], none, "720p", 1⟩ [] :=
  c1_no_flags_defaults ["http://a"] (by decide) (by decide)

/-- Claim C2: with one link, every `-t v` for an integer `v` in `[1, 31]`
parses successfully with `threads = v`; the values `0`, `32`, `-1` and the
non-integer token `abc` each end in a usage error with exit status 2. -/
theorem c2_threads_validation :
    (∀ v : Nat, 1 ≤ v → v ≤ 31 →
      run ["http://a", "-t", toString v] =
        .success ⟨["http://a"], none, "720p", (v : Int)⟩ []) ∧
    isUsageError (run ["http://a", "-t", "0"]) = true ∧
    isUsageError (run ["http://a", "-t", "32"]) = true ∧
    isUsageError (run ["http://a", "-t", "-1"]) = true ∧
    isUsageError (run ["http://a", "-t", "abc"]) = true ∧
    exitCode (run ["http://a", "-t", "0"]) = 2 ∧
    exitCode (run ["http://a", "-t", "32"]) = 2 ∧
    exitCode (run ["http://a", "-t", "-1"]) = 2 ∧
    exitCode (run ["http://a", "-t", "abc"]) = 2 := by
  refine ⟨?_, rfl, rfl, rfl, rfl, rfl, rfl, rfl, rfl⟩
  intro v h1 h2
  interval_cases v <;> rfl

theorem c2_witness :
    run ["http://a", "-t", toString 4] =
      .success ⟨["http://a"], none, "720p", ((4 : Nat) : Int)⟩ [] :=
  c2_threads_validation.1 4 (by decide) (by decide)

/-- Claim C3: with one link, `-q q` parses successfully with `quality = q`
for each `q` in the choice set, and the out-of-set value `4k` ends in a
usage error with exit status 2. -/
theorem c3_quality_validation :
    (∀ q ∈ qualityChoices,
      run ["http://a", "-q", q] = .success ⟨["http://a"], none, q, 1⟩ []) ∧
    isUsageError (run ["http://a", "-q", "4k"]) = true ∧
    exitCode (run ["http://a", "-q", "4k"]) = 2 := by
  refine ⟨?_, rfl, rfl⟩
  intro q hq
  simp only [qualityChoices, List.mem_cons, List.not_mem_nil, or_false] at hq
  rcases hq with rfl | rfl | rfl <;> rfl

theorem c3_witness :
    run ["http://a", "-q", "480p"] =
      .success ⟨["http://a"], none, "480p", 1⟩ [] :=
  c3_quality_validation.1 "480p" (by decide)

/-- Claim C4: the specific vector `["http://a", "http://b", "-v", "x",
"-q", "1080p", "-t", "4"]` parses with the links in order, quality `1080p`,
threads 4, and the three summary lines in order on standard output. -/
theorem c4_concrete_invocation :
    run ["http://a", "http://b", "-v", "x", "-q", "1080p", "-t", "4"] =
      .success ⟨["http://a", "http://b"], some "x", "1080p", 4⟩
        ["Verbose mode", "Downloading 1080p", "Downloading with 4 threads"] :=
  rfl

/-- Claim C5: the empty argument vector ends in the usage-error outcome for
the missing required `links`, with exit status 2; the outcome is the
`usageError` constructor, so no `ParsedArguments` value is produced. -/
theorem c5_no_links_usage_error :
    run [] = .usageError missingLinksMsg ∧ exitCode (run []) = 2 :=
  ⟨rfl, rfl⟩

/-- Claim C6, counterexample: it is not true that every successful parse
with the verbosity flag present prints the summary — with the value `""`
the flag is present (`verbosity` is `some ""`) yet nothing is printed. -/
theorem c6_counterexample :
    ¬ (∀ (argv : List String) (args : ParsedArguments) (out : List String),
        run argv = .success args out → args.verbosity.isSome = true →
        out ≠ []) := by
  intro h
  exact h ["http://a", "-v", ""] ⟨["http://a"], some "", "720p", 1⟩ [] rfl rfl
    rfl

/-- Claim C6, amended: on every successful parse whose verbosity value is a
non-empty string, the summary is printed: standard output is exactly the
three lines. (Presence with the empty-string value does not print.) -/
theorem c6_verbosity_truthy_prints (argv : List String)
    (args : ParsedArguments) (out : List String) (s : String)
    (h : run argv = .success args out) (hv : args.verbosity = some s)
    (hs : s ≠ "") :
    out = ["Verbose mode", "Downloading " ++ args.quality,
           "Downloading with " ++ toString args.threads ++ " threads"] := by
  have h1 := (run_success_inv h).1
  subst h1
  have hemp : s.isEmpty = false := by
    cases hE : s.isEmpty
    · rfl
    · exact absurd ((String.isEmpty_iff s).mp hE) hs
  have ht : pyTruthy args.verbosity = true := by
    rw [hv]
    simp [pyTruthy, hemp]
  simp [summaryLines, ht]

theorem c6_witness :
    (["Verbose mode", "Downloading 720p", "Downloading with 1 threads"] :
        List String) =
      ["Verbose mode", "Downloading " ++ "720p",
       "Downloading with " ++ toString (1 : Int) ++ " threads"] :=
  c6_verbosity_truthy_prints ["u", "-v", "w"] ⟨["u"], some "w", "720p", 1⟩
    ["Verbose mode", "Downloading 720p", "Downloading with 1 threads"] "w"
    rfl rfl (by decide)

/-- Claim C7: whenever a successful parse prints anything, standard output
is exactly three lines in order: the verbose-mode notice, the quality line,
and the threads line. -/
theorem c7_summary_three_lines (argv : List String) (args : ParsedArguments)
    (out : List String) (h : run argv = .success args out) (hne : out ≠ []) :
    out = ["Verbose mode", "Downloading " ++ args.quality,
           "Downloading with " ++ toString args.threads ++ " threads"] := by
  have h1 := (run_success_inv h).1
  subst h1
  by_cases ht : pyTruthy args.verbosity
  · simp [summaryLines, ht]
  · exact absurd (by simp [summaryLines, ht]) hne

theorem c7_witness :
    (["Verbose mode", "Downloading 1080p", "Downloading with 2 threads"] :
        List String) =
      ["Verbose mode", "Downloading " ++ "1080p",
       "Downloading with " ++ toString (2 : Int) ++ " threads"] :=
  c7_summary_three_lines ["http://z", "-v", "on", "-q", "1080p", "-t", "2"]
    ⟨["http://z"], some "on", "1080p", 2⟩
    ["Verbose mode", "Downloading 1080p", "Downloading with 2 threads"]
    rfl (by decide)

/-- Claim C8: the resolver is a deterministic function of the argument
vector: two runs on identical input yield identical outcomes. -/
theorem c8_resolver_deterministic (argv : List String) (r1 r2 : Outcome)
    (h1 : run argv = r1) (h2 : run argv = r2) : r1 = r2 :=
  h1.symm.trans h2

theorem c8_witness :
    Outcome.success ⟨["http://w"], none, "720p", 1⟩ [] =
      Outcome.success ⟨["http://w"], none, "720p", 1⟩ [] :=
  c8_resolver_deterministic ["http://w"] _ _ rfl rfl

/-- Claim C9: every validation failure is the single usage-error kind with
exit status 2; every outcome is success, help, or that kind; and a success
never silently holds an invalid value — its links are nonempty, its quality
is in the choice set and its threads are in `[1, 31]`. -/
theorem c9_invalid_argument_policy :
    (∀ (argv : List String) (args : ParsedArguments) (out : List String),
      run argv = .success args out →
      args.links ≠ [] ∧ args.quality ∈ qualityChoices ∧
        1 ≤ args.threads ∧ args.threads ≤ 31) ∧
    (∀ argv : List String, isUsageError (run argv) = true →
      exitCode (run argv) = 2) ∧
    (∀ argv : List String, run argv = .helpShown ∨
      isUsageError (run argv) = true ∨
      ∃ args out, run argv = .success args out) := by
  refine ⟨?_, ?_, ?_⟩
  · intro argv args out h
    exact (run_success_inv h).2
  · intro argv h
    cases hr : run argv with
    | success args out => rw [hr] at h; simp [isUsageError] at h
    | helpShown => rw [hr] at h; simp [isUsageError] at h
    | usageError m => rfl
  · intro argv
    cases hr : run argv with
    | success args out => exact Or.inr (Or.inr ⟨args, out, rfl⟩)
    | helpShown => exact Or.inl rfl
    | usageError m => exact Or.inr (Or.inl rfl)

theorem c9_witness :
    ((["http://c"] : List String) ≠ [] ∧ "720p" ∈ qualityChoices ∧
      (1 : Int) ≤ 1 ∧ (1 : Int) ≤ 31) ∧
    exitCode (run ["http://a", "-q", "bad"]) = 2 :=
  ⟨c9_invalid_argument_policy.1 ["http://c"]
      ⟨["http://c"], none, "720p", 1⟩ [] rfl,
   c9_invalid_argument_policy.2.1 ["http://a", "-q", "bad"] rfl⟩

/-- Claim C10: with one link and `-v ""`, parsing succeeds with `verbosity`
present but empty and nothing is printed, while `-v "y"` prints the summary:
printing requires a truthy (non-empty) verbosity value, not mere presence. -/
theorem c10_empty_verbosity_no_summary :
    run ["http://x", "-v", ""] =
      .success ⟨["http://x"], some "", "720p", 1⟩ [] ∧
    run ["http://x", "-v", "y"] =
      .success ⟨["http://x"], some "y", "720p", 1⟩
        ["Verbose mode", "Downloading 720p", "Downloading with 1 threads"] :=
  ⟨rfl, rfl⟩

end Downloader
